import Mathlib

set_option maxRecDepth 8000

/-!
Verification of the RNAMotif batch pipeline (`src/RNAMotif.cpp`, `main`,
lines 200-311) against its specification.  The per-family loop body
(lines 258-306), the batch over records, the option struct, and the
external batch script are shallowly embedded below.  Components whose
bodies live outside the provided sources (`WUSStoPseudoBracket`,
`structurePartition`, the two folding backends, `createInteractions`,
interaction-graph data types) are modelled from the spec where a claim
depends on them; their doc comments say so.
-/

namespace RNAMotif

/-- Embeds `struct AppOptions` (RNAMotif.cpp lines 116-132): verbosity and the
two boolean modes; file paths carried along but unused by the loop body. -/
structure AppOptions where
  verbosity : Int := 1
  constrain : Bool := false
  pseudoknot : Bool := false
  rna_file : String := ""
  out_file : String := ""
deriving DecidableEq, Repr

/-- Embeds `seqan::StockholmRecord<seqan::Rna>`: the header map (GF lines,
e.g. AC, ID), the name-to-sequence map `seqences` (sic, source spelling),
the per-column information map `seqence_information` (e.g. SS_cons), and
the alignment matrix, modelled as association lists / a list of rows. -/
structure StockholmRecord where
  header : List (String × String) := []
  seqences : List (String × String) := []
  seqence_information : List (String × String) := []
  alignment : List String := []
deriving DecidableEq, Repr

/-- Modelled from the spec: the Interaction Graph of one sequence
(vertices are columns, edges are base pairs); its C++ definition lives in
the absent `motif.h`.  A default-constructed graph is empty. -/
structure InteractionGraph where
  vertices : List Nat := []
  edges : List (Nat × Nat) := []
deriving DecidableEq, Repr

instance : Inhabited InteractionGraph := ⟨{}⟩

/-- Modelled from the spec: the flat Pair List companion of an
Interaction Graph. -/
def PairList := List (Nat × Nat)
deriving DecidableEq, Repr

instance : Inhabited PairList := ⟨([] : List (Nat × Nat))⟩

/-- Modelled from the spec: a Consensus Structure is a Base Pair set for
the whole family (the C++ type comes from the absent folding headers). -/
structure ConsensusStructure where
  pairs : List (Nat × Nat) := []
deriving DecidableEq, Repr

instance : Inhabited ConsensusStructure := ⟨{}⟩

/-- Modelled from the spec: the kind of a Structural Element emitted by
the Structure Partitioner (classification policy is an open design point
in the spec; only stem vs. non-stem is distinguished here). -/
inductive ElemKind where
  | stem
  | loop
deriving DecidableEq, Repr

/-- Modelled from the spec: a Structural Element of one Motif Profile:
its kind, the alignment columns it owns, and an aggregated score. -/
structure StructElem where
  kind : ElemKind
  columns : List Nat
  score : ℚ
deriving DecidableEq, Repr

/-- Modelled from the spec: one Motif Profile, the set of Structural
Elements produced under one numeric cutoff. -/
structure MotifProfile where
  cutoff : ℚ
  elements : List StructElem
deriving DecidableEq, Repr

/-- Embeds `struct Motif` as populated by the loop body (fields assigned
at RNAMotif.cpp lines 280-283, 296-298, 300); a default-constructed value
is the placeholder left in the result vector for skipped families. -/
structure Motif where
  header : List (String × String) := []
  seedAlignment : List String := []
  interactionGraphs : List InteractionGraph := []
  interactionPairs : List PairList := []
  consensusStructure : ConsensusStructure := {}
  profiles : List MotifProfile := []
deriving DecidableEq, Repr

instance : Inhabited Motif := ⟨{}⟩

/-- Modelled from the spec: the FormatError raised by the Constraint
Translator (annotation length mismatch, unbalanced brackets). -/
inductive FormatError where
  | lengthMismatch
  | unbalanced
deriving DecidableEq, Repr

/-- The exceptions the loop body can raise: `std::out_of_range` from a
`.at(key)` map lookup (RNAMotif.cpp lines 263, 274-275), undefined
behaviour from dereferencing `begin()` of an empty sequence map
(line 265), and a translator FormatError. -/
inductive Err where
  | outOfRange (key : String)
  | emptySeqences
  | format (e : FormatError)
deriving DecidableEq, Repr

/-- `.at(key)` on an association list: the value, or an out-of-range
exception as in `std::map::at`. -/
def mapAt (m : List (String × String)) (key : String) : Except Err String :=
  match m.lookup key with
  | some v => .ok v
  | none => .error (.outOfRange key)

/-- The bracket classes of the WUSS alphabet: the four bracket shapes plus
the pseudoknot letter classes Aa..Zz. -/
def wussClasses : List (Char × Char) :=
  [('<', '>'), ('(', ')'), ('[', ']'), ('{', '}')] ++
    (List.range 26).map (fun i => (Char.ofNat (65 + i), Char.ofNat (97 + i)))

/-- The characters acting as opening brackets in a WUSS annotation. -/
def wussOpen (c : Char) : Bool := wussClasses.any (fun p => p.1 == c)

/-- The characters acting as closing brackets in a WUSS annotation. -/
def wussClose (c : Char) : Bool := wussClasses.any (fun p => p.2 == c)

/-- Depth-scan balance check of one bracket class `(o, c)` over the
annotation: the running depth never goes negative and ends at zero. -/
def balancedFrom (o c : Char) : List Char → Nat → Bool
  | [], d => d == 0
  | x :: xs, d =>
    if x == o then balancedFrom o c xs (d + 1)
    else if x == c then
      match d with
      | 0 => false
      | d' + 1 => balancedFrom o c xs d'
    else balancedFrom o c xs d

/-- Every bracket class of the annotation is individually balanced. -/
def wussBalanced (ann : List Char) : Bool :=
  wussClasses.all (fun p => balancedFrom p.1 p.2 ann 0)

/-- Fold one WUSS character down to the two-symbol pseudo-bracket
alphabet: any opener to a round opening bracket, any closer to a round
closing bracket, everything else to the unpaired dot. -/
def toPseudoBracket (c : Char) : Char :=
  if wussOpen c then '(' else if wussClose c then ')' else '.'

/-- Modelled from the spec: `WUSStoPseudoBracket` (declared in the absent
`RNAlib_utils.h`, called at RNAMotif.cpp line 275) converts the reference
WUSS annotation into a plain pseudo-bracket constraint string; it fails
with a FormatError when the annotation length differs from the
alignment's column count or when brackets are unbalanced. -/
def WUSStoPseudoBracket (ann : List Char) (cols : Nat) : Except Err (List Char) :=
  if ann.length ≠ cols then .error (.format .lengthMismatch)
  else if ¬ wussBalanced ann then .error (.format .unbalanced)
  else .ok (ann.map toPseudoBracket)

/-- The fixed ordered cutoff list observed in the repository's batch
script (`stats_0` .. `stats_0.2` in steps of 0.02). -/
def fixedCutoffs : List ℚ :=
  [0, 2/100, 4/100, 6/100, 8/100, 10/100, 12/100, 14/100, 16/100, 18/100, 20/100]

/-- Splits a list into maximal runs on which `f` is constant, preserving
order; the concatenation of the runs is the original list. -/
def chunkBy (f : α → Bool) : List α → List (List α)
  | [] => []
  | a :: as =>
    match chunkBy f as with
    | [] => [[a]]
    | [] :: rest => [a] :: rest
    | (b :: bs) :: rest =>
      if f a == f b then (a :: b :: bs) :: rest
      else [a] :: (b :: bs) :: rest

/-- Modelled from the spec: the per-cutoff partition step of the
Structure Partitioner.  A column is kept as paired when it is an endpoint
of a consensus pair and its per-column statistic reaches the cutoff;
maximal runs of equal status become the Structural Elements (stems from
kept runs, loop elements otherwise), so every column lands in exactly one
element.  The exact stem/loop/junction classification is an open design
point of the spec and does not affect the coverage invariant. -/
def keptCol (pairs : List (Nat × Nat)) (stats : List ℚ) (cutoff : ℚ)
    (j : Nat) : Bool :=
  (pairs.any (fun p => p.1 == j || p.2 == j)) && decide (cutoff ≤ stats.getD j 0)

/-- Modelled from the spec: one Motif Profile for one cutoff, built by
grouping the alignment columns into maximal runs of equal kept status. -/
def partitionProfile (n : Nat) (pairs : List (Nat × Nat)) (stats : List ℚ)
    (cutoff : ℚ) : MotifProfile :=
  let chunks := chunkBy (keptCol pairs stats cutoff) (List.range n)
  { cutoff := cutoff
    elements := chunks.map (fun run =>
      { kind := if keptCol pairs stats cutoff (run.headD 0) then .stem else .loop
        columns := run
        score := (run.map (fun j => stats.getD j 0)).sum }) }

/-- The external collaborators the loop body calls into but whose code is
not under `src/`: the two folding backends behind `getConsensusStructure`
and the per-column statistics consumed by the Structure Partitioner.
They are parameters of the embedding: every theorem below holds for any
choice of them. -/
structure Externals where
  rnalib : StockholmRecord → Option (List Char) → ConsensusStructure
  ipknot : StockholmRecord → Option (List Char) → ConsensusStructure
  columnStats : Motif → List ℚ

/-- The tag argument selecting the folding backend at the call sites
RNAMotif.cpp lines 296 and 298. -/
inductive FoldTag where
  | IPknotFold
  | RNALibFold
deriving DecidableEq, Repr

/-- Embeds the overloaded `getConsensusStructure` call (RNAMotif.cpp
lines 296/298): the tag picks which backend computes the consensus. -/
def getConsensusStructure (ext : Externals) (record : StockholmRecord)
    (constraint : Option (List Char)) : FoldTag → ConsensusStructure
  | .IPknotFold => ext.ipknot record constraint
  | .RNALibFold => ext.rnalib record constraint

/-- Modelled from the spec: `structurePartition` (declared in the absent
`motif.h`, called at RNAMotif.cpp line 300) fills the motif's profiles,
one per cutoff of the fixed list, partitioning the alignment columns. -/
def structurePartition (ext : Externals) (m : Motif) : Motif :=
  let n := ((m.seedAlignment.headD "").length)
  let profs := fixedCutoffs.map
    (partitionProfile n m.consensusStructure.pairs (ext.columnStats m))
  { m with profiles := profs }

/-- Embeds the constraint block of the loop body (RNAMotif.cpp
lines 272-276): `constraint_bracket` stays NULL (`none`) unless
`options.constrain` is set, in which case `seqence_information.at` and
the translator run. -/
def mkConstraint (options : AppOptions) (record : StockholmRecord)
    (seq_len : Nat) : Except Err (Option (List Char)) :=
  if options.constrain then
    match mapAt record.seqence_information "SS_cons" with
    | .error e => .error e
    | .ok ss => (WUSStoPseudoBracket ss.toList seq_len).map some
  else .ok none

/-- The motif assembled for a non-skipped family (RNAMotif.cpp
lines 279-300): header and alignment copied, graph and pair vectors
resized to the sequence count and left default-valued (the
`createInteractions` call at line 289 is commented out), the consensus
from the backend picked by `options.pseudoknot`, then partitioned. -/
def assembledMotif (ext : Externals) (options : AppOptions)
    (record : StockholmRecord) (constraint_bracket : Option (List Char)) : Motif :=
  let rna_motif : Motif :=
    { header := record.header
      seedAlignment := record.alignment
      interactionGraphs := List.replicate record.seqences.length default
      interactionPairs := List.replicate record.seqences.length default }
  let tag : FoldTag := if options.pseudoknot then .IPknotFold else .RNALibFold
  let rna_motif :=
    { rna_motif with consensusStructure :=
        getConsensusStructure ext record constraint_bracket tag }
  structurePartition ext rna_motif

/-- Embeds the body of the per-family loop (RNAMotif.cpp lines 258-306)
for one record.  `.ok none` is the `continue` taken when the first
sequence exceeds 1000 columns (lines 266-269, no write to `motifs[k]`);
`.ok (some m)` is the motif written at line 302; `.error e` is a C++
exception leaving the body, which has no try/catch.  Step by step:
line 263 reads `header.at("AC")` and `header.at("ID")`; line 265 takes
the length of `seqences.begin()->second` (undefined behaviour on an
empty map, modelled as an error); lines 272-276 build the constraint via
`mkConstraint`; lines 279-300 assemble via `assembledMotif`; `DEBUG_MSG`
(line 294) is compiled-out logging and not modelled. -/
def assembleFamily (ext : Externals) (options : AppOptions)
    (record : StockholmRecord) : Except Err (Option Motif) :=
  match mapAt record.header "AC" with
  | .error e => .error e
  | .ok _ac =>
    match mapAt record.header "ID" with
    | .error e => .error e
    | .ok _id =>
      match record.seqences.head? with
      | none => .error .emptySeqences
      | some firstSeq =>
        let seq_len := firstSeq.2.length
        if seq_len > 1000 then .ok none
        else
          match mkConstraint options record seq_len with
          | .error e => .error e
          | .ok constraint_bracket =>
            .ok (some (assembledMotif ext options record constraint_bracket))

/-- The value iteration `k` writes into `motifs[k]`, if any: `none` both
when the family is skipped (`continue`, line 268) and when an exception
leaves the body (OpenMP then terminates the process; no write happens
either way). -/
def famVal (ext : Externals) (options : AppOptions)
    (records : List StockholmRecord) (k : Nat) : Option Motif :=
  match records[k]? with
  | none => none
  | some r =>
    match assembleFamily ext options r with
    | .ok (some m) => some m
    | _ => none

/-- One iteration of the parallel loop acting on the shared result
vector: iteration `k` writes `motifs[k] = rna_motif` (line 302) exactly
when the family is processed, and touches nothing otherwise. -/
def famWrite (ext : Externals) (options : AppOptions)
    (records : List StockholmRecord) (motifs : List Motif) (k : Nat) : List Motif :=
  match famVal ext options records k with
  | some m => motifs.set k m
  | none => motifs

/-- The batch run under an arbitrary scheduling order of the iterations:
the result vector `std::vector<Motif> motifs(records.size())`
(line 252) is pre-sized with default-constructed placeholders, then each
scheduled iteration performs its own write. -/
def runOrder (ext : Externals) (options : AppOptions)
    (records : List StockholmRecord) (order : List Nat) : List Motif :=
  order.foldl (famWrite ext options records) (List.replicate records.length default)

/-- The batch with C++ exception semantics: the loop body has no handler,
so the first exception escapes and aborts the batch (under OpenMP an
exception leaving the parallel region terminates the process); otherwise
each family contributes its motif, or the default placeholder when
skipped. -/
def runBatchSeq (ext : Externals) (options : AppOptions) :
    List StockholmRecord → Except Err (List Motif)
  | [] => .ok []
  | r :: rs =>
    match assembleFamily ext options r with
    | .error e => .error e
    | .ok o =>
      match runBatchSeq ext options rs with
      | .error e => .error e
      | .ok ms => .ok (o.getD default :: ms)

/-- Embeds the repository's batch script loop: it increments its counter
for every family whose input file is non-empty (`[ -s file ]`) and
finally echoes that single number; the per-family outcome inside RNAMotif
never feeds back into the count. -/
def scriptProcessedCount (fams : List (StockholmRecord × Bool)) : Nat :=
  (fams.filter (fun f => f.2)).length

/-! ### Concrete fixtures used by witnesses and counterexamples -/

/-- A concrete choice of the external collaborators: the two backends
return distinct pair sets (the pseudoknot-aware one crossing), the
statistics are uniformly 1. -/
def extTest : Externals :=
  { rnalib := fun _ _ => { pairs := [(0, 5)] }
    ipknot := fun _ _ => { pairs := [(0, 3), (1, 4)] }
    columnStats := fun _ => [1, 1, 1, 1, 1, 1] }

/-- Default options: both modes off. -/
def opts0 : AppOptions := {}

/-- Options with constrain mode on. -/
def optsCon : AppOptions := { constrain := true }

/-- Options with pseudoknot mode on. -/
def optsPK : AppOptions := { pseudoknot := true }

/-- A small well-formed family record. -/
def recGood : StockholmRecord :=
  { header := [("AC", "RF00001"), ("ID", "FAM1")]
    seqences := [("s1", "GGCACC"), ("s2", "GGAACC")]
    seqence_information := [("SS_cons", "<<..>>")]
    alignment := ["GGCACC", "GGAACC"] }

/-- A record whose reference annotation has unbalanced brackets. -/
def recBadSS : StockholmRecord :=
  { header := [("AC", "RF00002"), ("ID", "FAM2")]
    seqences := [("s1", "AC")]
    seqence_information := [("SS_cons", "((")]
    alignment := ["AC"] }

/-- A record missing the AC header key; its only sequence is over the
size ceiling, so a skip would apply if the header were read later. -/
def recNoAC : StockholmRecord :=
  { header := [("ID", "FAM3")]
    seqences := [("s1", String.mk (List.replicate 2000 'A'))]
    seqence_information := []
    alignment := [] }

/-- A record whose first sequence is short but whose second sequence has
1500 columns, exceeding the ceiling. -/
def recLongSecond : StockholmRecord :=
  { header := [("AC", "RF00004"), ("ID", "FAM4")]
    seqences := [("a1", "ACGU"), ("a2", String.mk (List.replicate 1500 'A'))]
    seqence_information := []
    alignment := ["ACGU"] }

/-- A record whose first sequence has 1001 columns. -/
def recFirstLong : StockholmRecord :=
  { header := [("AC", "RF00005"), ("ID", "FAM5")]
    seqences := [("s1", String.mk (List.replicate 1001 'A'))]
    seqence_information := []
    alignment := [] }

/-- Extracts the motif of a processed family, defaulting otherwise. -/
def okSomeOf (x : Except Err (Option Motif)) : Motif :=
  match x with
  | .ok (some m) => m
  | _ => default

/-- The motif assembled for `recGood` under default options. -/
def mGood0 : Motif := okSomeOf (assembleFamily extTest opts0 recGood)

/-- The motif assembled for `recGood` with pseudoknot mode on. -/
def mGoodPK : Motif := okSomeOf (assembleFamily extTest optsPK recGood)

/-- The motif assembled for `recGood` with constrain mode on. -/
def mGoodCon : Motif := okSomeOf (assembleFamily extTest optsCon recGood)

/-- The motif assembled for `recLongSecond` under default options. -/
def mLongSecond : Motif := okSomeOf (assembleFamily extTest opts0 recLongSecond)

/-! ### Helper lemmas -/

/-- Characterizes a processed family: all lookups succeeded, the first
sequence is within the ceiling, the constraint block succeeded, and the
produced motif is `assembledMotif`. -/
theorem assembleFamily_ok_some (ext : Externals) (options : AppOptions)
    (record : StockholmRecord) (m : Motif) :
    assembleFamily ext options record = .ok (some m) ↔
      ∃ s cb, record.seqences.head? = some s ∧ ¬ 1000 < s.2.length ∧
        (record.header.lookup "AC").isSome ∧ (record.header.lookup "ID").isSome ∧
        mkConstraint options record s.2.length = .ok cb ∧
        m = assembledMotif ext options record cb := by
  unfold assembleFamily mapAt
  cases hAC : record.header.lookup "AC" with
  | none => simp
  | some vAC =>
    cases hID : record.header.lookup "ID" with
    | none => simp
    | some vID =>
      cases hS : record.seqences.head? with
      | none => simp
      | some s =>
        by_cases hlen : s.2.length > 1000
        · simp [hlen]
        · cases hC : mkConstraint options record s.2.length with
          | error e => simp [hlen, hC]
          | ok cb =>
            simp only [hlen, if_false, hC, Option.isSome_some]
            constructor
            · intro h
              exact ⟨s, cb, rfl, hlen, trivial, trivial, hC,
                (by injection h with h'; injection h' with h''; exact h''.symm)⟩
            · rintro ⟨s', cb', hs', _, _, _, hc', hm⟩
              injection hs' with hs'
              subst hs'
              rw [hC] at hc'
              injection hc' with hc'
              subst hc'
              rw [hm]

/-- Concatenating the runs produced by `chunkBy` restores the list. -/
theorem chunkBy_flatten (f : α → Bool) (l : List α) : (chunkBy f l).flatten = l := by
  induction l with
  | nil => rfl
  | cons a as ih =>
    simp only [chunkBy]
    split
    · next h =>
      rw [h] at ih
      simp only [List.flatten_nil] at ih
      simp [← ih]
    · next h =>
      rw [h] at ih
      simp only [List.flatten_cons, List.nil_append] at ih
      simp [ih]
    · next b bs rest h =>
      rw [h] at ih
      simp only [List.flatten_cons] at ih
      split <;> simp [List.flatten_cons, ih]

/-- A write target exists only for an in-range record index. -/
theorem famVal_lt {ext : Externals} {options : AppOptions}
    {records : List StockholmRecord} {k : Nat} {m : Motif}
    (h : famVal ext options records k = some m) : k < records.length := by
  unfold famVal at h
  cases hrk : records[k]? with
  | none => rw [hrk] at h; exact absurd h (by simp)
  | some r => exact (List.getElem?_eq_some.mp hrk).1

/-- `famWrite` never changes the length of the result vector. -/
theorem famWrite_length (ext : Externals) (options : AppOptions)
    (records : List StockholmRecord) (init : List Motif) (k : Nat) :
    (famWrite ext options records init k).length = init.length := by
  unfold famWrite
  split <;> simp

/-- `famWrite` at iteration `k` leaves every other index unchanged. -/
theorem famWrite_getElem_ne (ext : Externals) (options : AppOptions)
    (records : List StockholmRecord) (init : List Motif) {k j : Nat} (h : j ≠ k) :
    (famWrite ext options records init k)[j]? = init[j]? := by
  unfold famWrite
  split
  · exact List.getElem?_set_ne (fun hkj => h hkj.symm)
  · rfl

/-- What any scheduled prefix of the loop has written at index `j`:
the family's own value if iteration `j` was scheduled and writes,
the initial placeholder otherwise. -/
theorem foldl_famWrite_getElem (ext : Externals) (options : AppOptions)
    (records : List StockholmRecord) (order : List Nat) :
    ∀ init : List Motif, init.length = records.length → ∀ j : Nat,
    (order.foldl (famWrite ext options records) init)[j]? =
      match famVal ext options records j with
      | some m => if j ∈ order then some m else init[j]?
      | none => init[j]? := by
  induction order with
  | nil =>
    intro init _ j
    simp only [List.foldl_nil, List.not_mem_nil, if_false]
    split <;> rfl
  | cons k rest ih =>
    intro init hlen j
    rw [List.foldl_cons]
    have hlen' : (famWrite ext options records init k).length = records.length := by
      rw [famWrite_length]; exact hlen
    rw [ih _ hlen' j]
    by_cases hjk : j = k
    · subst hjk
      cases hv : famVal ext options records j with
      | none =>
        simp only [hv]
        unfold famWrite
        rw [hv]
      | some m =>
        have hlt : j < init.length := hlen ▸ famVal_lt hv
        simp only [hv, List.mem_cons, true_or, if_true]
        by_cases hjr : j ∈ rest
        · simp [hjr]
        · simp only [hjr, if_false]
          unfold famWrite
          rw [hv]
          exact List.getElem?_set_eq_of_lt m hlt
    · rw [famWrite_getElem_ne ext options records init hjk]
      cases hv : famVal ext options records j with
      | none => simp [hv]
      | some m =>
        simp only [hv, List.mem_cons]
        by_cases hjr : j ∈ rest <;> simp [hjr, hjk]

/-- Any scheduled prefix of the loop leaves the result vector at its
pre-sized length. -/
theorem foldl_famWrite_length (ext : Externals) (options : AppOptions)
    (records : List StockholmRecord) (order : List Nat) :
    ∀ init : List Motif,
      (order.foldl (famWrite ext options records) init).length = init.length := by
  induction order with
  | nil => intro init; rfl
  | cons k rest ih =>
    intro init
    rw [List.foldl_cons, ih, famWrite_length]

/-- The batch aborts exactly when some family's body raises. -/
theorem runBatchSeq_isOk (ext : Externals) (options : AppOptions)
    (records : List StockholmRecord) :
    (runBatchSeq ext options records).isOk = true ↔
      ∀ r ∈ records, (assembleFamily ext options r).isOk = true := by
  induction records with
  | nil => simp [runBatchSeq, Except.isOk, Except.toBool]
  | cons r rs ih =>
    simp only [runBatchSeq, List.mem_cons]
    constructor
    · intro h
      cases hr : assembleFamily ext options r with
      | error e =>
        rw [hr] at h
        exact absurd h (by simp [Except.isOk, Except.toBool])
      | ok o =>
        rw [hr] at h
        cases hrs : runBatchSeq ext options rs with
        | error e =>
          rw [hrs] at h
          exact absurd h (by simp [Except.isOk, Except.toBool])
        | ok ms =>
          intro x hx
          rcases hx with hx | hx
          · subst hx; simp [hr, Except.isOk, Except.toBool]
          · exact ih.mp (by simp [Except.isOk, Except.toBool, hrs]) x hx
    · intro h
      have hr := h r (Or.inl rfl)
      cases hra : assembleFamily ext options r with
      | error e =>
        rw [hra] at hr
        exact absurd hr (by simp [Except.isOk, Except.toBool])
      | ok o =>
        have hrs : (runBatchSeq ext options rs).isOk = true :=
          ih.mpr (fun x hx => h x (Or.inr hx))
        cases hrsb : runBatchSeq ext options rs with
        | error e =>
          rw [hrsb] at hrs
          exact absurd hrs (by simp [Except.isOk, Except.toBool])
        | ok ms => simp [hra, hrsb, Except.isOk, Except.toBool]

/-- A family body error makes the whole batch fail: no handler exists. -/
theorem batch_aborts_of_family_error (ext : Externals) (options : AppOptions)
    (records : List StockholmRecord) (r : StockholmRecord) (e : Err)
    (hmem : r ∈ records) (herr : assembleFamily ext options r = .error e) :
    ∃ e', runBatchSeq ext options records = .error e' := by
  cases hb : runBatchSeq ext options records with
  | error e' => exact ⟨e', rfl⟩
  | ok ms =>
    have hok := (runBatchSeq_isOk ext options records).mp
      (by simp [hb, Except.isOk, Except.toBool]) r hmem
    rw [herr] at hok
    exact absurd hok (by simp [Except.isOk, Except.toBool])

/-! ### Claims -/

/-- C1: the claim states that any exception raised while assembling a
family is caught at the Motif Assembler boundary and becomes a Skipped
result, never aborting the batch.  The loop body (RNAMotif.cpp
lines 258-306) contains no try/catch: on the concrete one-family batch
below, the translator's FormatError escapes the loop body and the batch
fails instead of yielding a placeholder result list. -/
theorem C1_counterexample :
    runBatchSeq extTest optsCon [recBadSS] = .error (.format .unbalanced) ∧
    (runBatchSeq extTest optsCon [recBadSS]).isOk = false := by
  constructor
  · rfl
  · rfl

/-- C1 (amended): no exception raised in the loop body is caught; any
family whose body raises makes the exception escape the loop and abort
the whole batch. -/
theorem C1_amended (ext : Externals) (options : AppOptions)
    (records : List StockholmRecord) (r : StockholmRecord) (e : Err)
    (hmem : r ∈ records) (herr : assembleFamily ext options r = .error e) :
    ∃ e', runBatchSeq ext options records = .error e' :=
  batch_aborts_of_family_error ext options records r e hmem herr

/-- C1 (amended) at a concrete input: the unbalanced-annotation family is
in the batch and its body raises, so the batch aborts. -/
theorem C1_amended_witness :
    (recBadSS ∈ [recBadSS, recGood] ∧
      assembleFamily extTest optsCon recBadSS = .error (.format .unbalanced)) ∧
    ∃ e', runBatchSeq extTest optsCon [recBadSS, recGood] = .error e' :=
  ⟨⟨List.Mem.head _, rfl⟩,
    C1_amended extTest optsCon [recBadSS, recGood] recBadSS (.format .unbalanced)
      (List.Mem.head _) rfl⟩

/-- C2: the claim states that for every non-skipped family the
Interaction Graph Builder runs once per sequence, leaving one populated
graph and pair list per sequence.  The code resizes both vectors to the
sequence count (RNAMotif.cpp lines 282-283) but the `createInteractions`
call in the per-sequence loop (line 289) is commented out, contradicting
the comment above it, so every entry remains default-constructed: this
theorem evaluates the code and shows the vectors are filled with the
default (unpopulated) value for every processed family. -/
theorem C2_theorem (ext : Externals) (options : AppOptions)
    (record : StockholmRecord) (m : Motif)
    (h : assembleFamily ext options record = .ok (some m)) :
    m.interactionGraphs = List.replicate record.seqences.length default ∧
    m.interactionPairs = List.replicate record.seqences.length default := by
  obtain ⟨s, cb, _, _, _, _, _, hm⟩ :=
    (assembleFamily_ok_some ext options record m).mp h
  subst hm
  exact ⟨rfl, rfl⟩

/-- C2 at a concrete input: the processed two-sequence family ends with
two default-constructed graphs and pair lists. -/
theorem C2_witness :
    assembleFamily extTest opts0 recGood = .ok (some mGood0) ∧
    (mGood0.interactionGraphs = List.replicate recGood.seqences.length default ∧
      mGood0.interactionPairs = List.replicate recGood.seqences.length default) :=
  ⟨rfl, C2_theorem extTest opts0 recGood mGood0 rfl⟩

/-- C3: the claim states that a family is skipped when its longest
sequence exceeds 1000 columns.  The code (RNAMotif.cpp line 265) reads
the length of the first sequence of the map only: on the concrete record
below the second sequence has 1500 columns, yet the family is processed,
not skipped. -/
theorem C3_counterexample :
    (∃ s ∈ recLongSecond.seqences, 1000 < s.2.length) ∧
    assembleFamily extTest opts0 recLongSecond ≠ .ok none ∧
    (assembleFamily extTest opts0 recLongSecond).isOk = true := by
  refine ⟨⟨("a2", String.mk (List.replicate 1500 'A')),
    List.Mem.tail _ (List.Mem.head _), by simp [String.length]⟩, ?_, ?_⟩
  · have h : assembleFamily extTest opts0 recLongSecond = .ok (some mLongSecond) := rfl
    rw [h]
    simp
  · have h : assembleFamily extTest opts0 recLongSecond = .ok (some mLongSecond) := rfl
    rw [h]
    rfl

/-- C3 (amended): a family is skipped, leaving the default placeholder,
exactly when the header lookups succeed and the FIRST sequence of the
record exceeds 1000 columns; the longest sequence plays no role. -/
theorem C3_amended (ext : Externals) (options : AppOptions)
    (record : StockholmRecord) :
    assembleFamily ext options record = .ok none ↔
      ((record.header.lookup "AC").isSome ∧ (record.header.lookup "ID").isSome ∧
        ∃ s, record.seqences.head? = some s ∧ 1000 < s.2.length) := by
  unfold assembleFamily mapAt
  cases hAC : record.header.lookup "AC" with
  | none => simp
  | some vAC =>
    cases hID : record.header.lookup "ID" with
    | none => simp
    | some vID =>
      cases hS : record.seqences.head? with
      | none => simp
      | some s =>
        by_cases hlen : s.2.length > 1000
        · simp only [hlen, if_true, Option.isSome_some]
          constructor
          · intro _; exact ⟨trivial, trivial, s, rfl, hlen⟩
          · intro _; trivial
        · cases hC : mkConstraint options record s.2.length with
          | error e => simp [hlen, hC]
          | ok cb => simp [hlen, hC]

/-- C3 (amended) at a concrete input: the record whose single (first)
sequence has 1001 columns is skipped. -/
theorem C3_amended_witness :
    assembleFamily extTest opts0 recFirstLong = .ok none :=
  (C3_amended extTest opts0 recFirstLong).mpr
    ⟨by decide, by decide,
      ⟨("s1", String.mk (List.replicate 1001 'A')), rfl, by simp [String.length]⟩⟩

/-- C4: the claim states that the final report counts successfully
processed families, distinguishing assembled, degraded and skipped, and
excludes size-skipped families.  The program prints nothing after the
loop (RNAMotif.cpp lines 308-310), and the repository's batch script
counts a family as processed as soon as its input file is non-empty: on
the concrete batch below the only family is size-skipped inside the
loop, yet the script's count is 1, not 0. -/
theorem C4_counterexample :
    scriptProcessedCount [(recFirstLong, true)] = 1 ∧
    assembleFamily extTest opts0 recFirstLong = .ok none ∧
    scriptProcessedCount [(recFirstLong, true)] ≠ 0 := by
  refine ⟨rfl, rfl, ?_⟩
  decide

/-- C4 (amended): the only final report is the batch script's single
count of families whose input file is non-empty; it depends only on the
file-presence flags, so it neither distinguishes assembled, degraded and
skipped families nor excludes families skipped inside the loop. -/
theorem C4_amended (fams fams' : List (StockholmRecord × Bool))
    (h : fams.map Prod.snd = fams'.map Prod.snd) :
    scriptProcessedCount fams = scriptProcessedCount fams' := by
  unfold scriptProcessedCount
  rw [← List.countP_eq_length_filter, ← List.countP_eq_length_filter]
  have h1 : ∀ l : List (StockholmRecord × Bool),
      l.countP (fun f => f.2) = (l.map Prod.snd).countP id := by
    intro l
    rw [List.countP_map]
    rfl
  rw [h1, h1, h]

/-- C4 (amended) at a concrete input: two batches with the same presence
flags but different families (one processed, one size-skipped) get the
same reported count. -/
theorem C4_amended_witness :
    ([(recFirstLong, true)].map Prod.snd = [(recGood, true)].map Prod.snd) ∧
    scriptProcessedCount [(recFirstLong, true)] =
      scriptProcessedCount [(recGood, true)] :=
  ⟨rfl, C4_amended [(recFirstLong, true)] [(recGood, true)] rfl⟩

/-- C5: the result vector is created with `records.size()` default
elements (RNAMotif.cpp line 252) and never resized by any schedule of
iterations; appending iteration `k` to a schedule changes no index other
than `k`; and under the program's full schedule the element at index `k`
is determined by record `k` alone, so input order is preserved. -/
theorem C5_theorem (ext : Externals) (options : AppOptions)
    (records : List StockholmRecord) :
    (∀ order : List Nat,
      (runOrder ext options records order).length = records.length) ∧
    (∀ (order : List Nat) (k j : Nat), j ≠ k →
      (runOrder ext options records (order ++ [k]))[j]? =
        (runOrder ext options records order)[j]?) ∧
    (∀ k : Nat, k < records.length →
      (runOrder ext options records (List.range records.length))[k]? =
        some ((famVal ext options records k).getD default)) := by
  refine ⟨?_, ?_, ?_⟩
  · intro order
    unfold runOrder
    rw [foldl_famWrite_length, List.length_replicate]
  · intro order k j hj
    unfold runOrder
    rw [List.foldl_append, List.foldl_cons, List.foldl_nil]
    exact famWrite_getElem_ne ext options records _ hj
  · intro k hk
    unfold runOrder
    rw [foldl_famWrite_getElem ext options records (List.range records.length)
      (List.replicate records.length default) (List.length_replicate _ _) k]
    cases hv : famVal ext options records k with
    | some m => simp [List.mem_range, hk]
    | none => simp [List.getElem?_replicate, hk]

/-- C5 at a concrete input: on a one-record batch, the off-index read is
unchanged by an extra iteration, and index 0 receives family 0's motif. -/
theorem C5_witness :
    ((1 : Nat) ≠ 0 ∧
      (runOrder extTest opts0 [recGood] ([] ++ [0]))[1]? =
        (runOrder extTest opts0 [recGood] [])[1]?) ∧
    ((0 : Nat) < [recGood].length ∧
      (runOrder extTest opts0 [recGood] (List.range [recGood].length))[0]? =
        some ((famVal extTest opts0 [recGood] 0).getD default)) :=
  ⟨⟨by decide, (C5_theorem extTest opts0 [recGood]).2.1 [] 0 1 (by decide)⟩,
    ⟨by decide, (C5_theorem extTest opts0 [recGood]).2.2 0 (by decide)⟩⟩

/-- C6: for every processed family, the single consensus structure of
its motif is computed by exactly one backend, chosen by the pseudoknot
flag: the pseudoknot-aware one when set, the thermodynamic one
otherwise. -/
theorem C6_theorem (ext : Externals) (options : AppOptions)
    (record : StockholmRecord) (m : Motif)
    (h : assembleFamily ext options record = .ok (some m)) :
    ∃ cb,
      (options.pseudoknot = true → m.consensusStructure = ext.ipknot record cb) ∧
      (options.pseudoknot = false → m.consensusStructure = ext.rnalib record cb) := by
  obtain ⟨s, cb, _, _, _, _, _, hm⟩ :=
    (assembleFamily_ok_some ext options record m).mp h
  subst hm
  refine ⟨cb, ?_, ?_⟩
  · intro hpk
    simp [assembledMotif, structurePartition, getConsensusStructure, hpk]
  · intro hpk
    simp [assembledMotif, structurePartition, getConsensusStructure, hpk]

/-- C6 at a concrete input: with the pseudoknot flag set, the processed
family's consensus comes from the pseudoknot-aware backend. -/
theorem C6_witness :
    assembleFamily extTest optsPK recGood = .ok (some mGoodPK) ∧
    ∃ cb,
      (optsPK.pseudoknot = true → mGoodPK.consensusStructure = extTest.ipknot recGood cb) ∧
      (optsPK.pseudoknot = false → mGoodPK.consensusStructure = extTest.rnalib recGood cb) :=
  ⟨rfl, C6_theorem extTest optsPK recGood mGoodPK rfl⟩

/-- C7: any two scheduling orders of the family iterations produce the
same result vector, because each family's write depends only on its own
record and the options. -/
theorem C7_theorem (ext : Externals) (options : AppOptions)
    (records : List StockholmRecord) (order1 order2 : List Nat)
    (h1 : order1.Perm (List.range records.length))
    (h2 : order2.Perm (List.range records.length)) :
    runOrder ext options records order1 = runOrder ext options records order2 := by
  apply List.ext_getElem?
  intro j
  unfold runOrder
  rw [foldl_famWrite_getElem ext options records order1
    (List.replicate records.length default) (List.length_replicate _ _) j]
  rw [foldl_famWrite_getElem ext options records order2
    (List.replicate records.length default) (List.length_replicate _ _) j]
  have hmem : (j ∈ order1) = (j ∈ order2) := by
    rw [eq_iff_iff]
    exact h1.mem_iff.trans h2.mem_iff.symm
  cases hv : famVal ext options records j with
  | none => rfl
  | some m =>
    dsimp only
    by_cases hj : j ∈ order1
    · rw [if_pos hj, if_pos (hmem ▸ hj)]
    · rw [if_neg hj, if_neg (fun hc => hj (hmem.symm ▸ hc))]

/-- C7 at a concrete input: the two schedules of a two-family batch give
identical result vectors. -/
theorem C7_witness :
    (([1, 0] : List Nat).Perm (List.range [recGood, recBadSS].length) ∧
      ([0, 1] : List Nat).Perm (List.range [recGood, recBadSS].length)) ∧
    runOrder extTest opts0 [recGood, recBadSS] [1, 0] =
      runOrder extTest opts0 [recGood, recBadSS] [0, 1] :=
  ⟨⟨by decide, by decide⟩,
    C7_theorem extTest opts0 [recGood, recBadSS] [1, 0] [0, 1] (by decide) (by decide)⟩

/-- C8: for every consensus pair set, column statistics and cutoff, the
Structure Partitioner assigns every alignment column to exactly one
Structural Element: the concatenation of the elements' column lists is
exactly the full column range, and the lists are pairwise disjoint, so
the Fatal invariant-violation case can never arise. -/
theorem C8_theorem (n : Nat) (pairs : List (Nat × Nat)) (stats : List ℚ)
    (cutoff : ℚ) :
    ((partitionProfile n pairs stats cutoff).elements.map
        StructElem.columns).flatten = List.range n ∧
    List.Pairwise List.Disjoint
      ((partitionProfile n pairs stats cutoff).elements.map StructElem.columns) := by
  have hmap : (partitionProfile n pairs stats cutoff).elements.map StructElem.columns
      = chunkBy (keptCol pairs stats cutoff) (List.range n) := by
    unfold partitionProfile
    rw [List.map_map]
    exact List.map_id' _
  have hflat : ((partitionProfile n pairs stats cutoff).elements.map
      StructElem.columns).flatten = List.range n := by
    rw [hmap]
    exact chunkBy_flatten _ _
  refine ⟨hflat, ?_⟩
  have hnd : (((partitionProfile n pairs stats cutoff).elements.map
      StructElem.columns).flatten).Nodup := by
    rw [hflat]
    exact List.nodup_range n
  exact (List.nodup_flatten.mp hnd).2

/-- C9: the claim states that a translator FormatError surfaces as a
Skipped family while the other families of the batch are processed
normally.  The loop body has no handler: on the concrete batch below the
FormatError of the first family aborts the whole batch (the second
family alone would have been processed fine). -/
theorem C9_counterexample :
    runBatchSeq extTest optsCon [recBadSS, recGood] = .error (.format .unbalanced) ∧
    (runBatchSeq extTest optsCon [recGood]).isOk = true := by
  exact ⟨rfl, rfl⟩

/-- C9 (amended): the Constraint Translator fails with a FormatError on
an annotation length mismatch or unbalanced brackets, but such an error
is not converted into a Skipped family: it escapes the loop body and
aborts the batch, so the remaining families are not processed. -/
theorem C9_amended (ann : List Char) (cols : Nat) :
    (ann.length ≠ cols →
      WUSStoPseudoBracket ann cols = .error (.format .lengthMismatch)) ∧
    (ann.length = cols → wussBalanced ann = false →
      WUSStoPseudoBracket ann cols = .error (.format .unbalanced)) ∧
    (∀ (ext : Externals) (options : AppOptions)
        (records : List StockholmRecord) (r : StockholmRecord), r ∈ records →
      assembleFamily ext options r = .error (.format .unbalanced) →
      ∃ e', runBatchSeq ext options records = .error e') := by
  refine ⟨?_, ?_, ?_⟩
  · intro h
    unfold WUSStoPseudoBracket
    rw [if_pos h]
  · intro hlen hbal
    unfold WUSStoPseudoBracket
    rw [if_neg (by simp [hlen]), if_pos (by simp [hbal])]
  · intro ext options records r hmem herr
    exact batch_aborts_of_family_error ext options records r _ hmem herr

/-- C9 (amended) at concrete inputs: a length mismatch and an unbalanced
annotation each produce the FormatError, and the unbalanced family's
error aborts its batch. -/
theorem C9_witness :
    (['('].length ≠ 0 ∧
      WUSStoPseudoBracket ['('] 0 = .error (.format .lengthMismatch)) ∧
    (['(', '('].length = 2 ∧ wussBalanced ['(', '('] = false ∧
      WUSStoPseudoBracket ['(', '('] 2 = .error (.format .unbalanced)) ∧
    (recBadSS ∈ [recBadSS] ∧
      assembleFamily extTest optsCon recBadSS = .error (.format .unbalanced) ∧
      ∃ e', runBatchSeq extTest optsCon [recBadSS] = .error e') :=
  ⟨⟨by decide, (C9_amended ['('] 0).1 (by decide)⟩,
    ⟨rfl, by decide, (C9_amended ['(', '('] 2).2.1 rfl (by decide)⟩,
    ⟨List.Mem.head _, rfl,
      (C9_amended [] 0).2.2 extTest optsCon [recBadSS] recBadSS
        (List.Mem.head _) rfl⟩⟩

/-- C10: the loop body reads the header keys AC and ID of every record
before anything else (in particular before the size-ceiling check, so a
record missing AC raises even when it would be skipped), and a processed
family requires AC and ID present and, in constrain mode, the SS_cons
annotation; a missing key raises an uncaught out-of-range exception. -/
theorem C10_theorem (ext : Externals) (options : AppOptions)
    (record : StockholmRecord) :
    (record.header.lookup "AC" = none →
      assembleFamily ext options record = .error (.outOfRange "AC")) ∧
    ((record.header.lookup "AC").isSome → record.header.lookup "ID" = none →
      assembleFamily ext options record = .error (.outOfRange "ID")) ∧
    (∀ m : Motif, assembleFamily ext options record = .ok (some m) →
      (record.header.lookup "AC").isSome ∧ (record.header.lookup "ID").isSome ∧
      (options.constrain = true →
        (record.seqence_information.lookup "SS_cons").isSome)) := by
  refine ⟨?_, ?_, ?_⟩
  · intro h
    unfold assembleFamily mapAt
    rw [h]
  · intro hac hid
    obtain ⟨vAC, hv⟩ := Option.isSome_iff_exists.mp hac
    unfold assembleFamily mapAt
    rw [hv, hid]
  · intro m h
    obtain ⟨s, cb, _, _, hac, hid, hC, _⟩ :=
      (assembleFamily_ok_some ext options record m).mp h
    refine ⟨hac, hid, ?_⟩
    intro hcon
    unfold mkConstraint at hC
    rw [hcon] at hC
    simp only [if_true] at hC
    unfold mapAt at hC
    cases hss : record.seqence_information.lookup "SS_cons" with
    | none =>
      rw [hss] at hC
      exact absurd hC (by simp)
    | some v => rfl

/-- C10 at concrete inputs: a record with no AC key raises out-of-range
(despite its sequence being over the ceiling), and a processed family in
constrain mode has AC, ID and SS_cons present. -/
theorem C10_witness :
    (recNoAC.header.lookup "AC" = none ∧
      assembleFamily extTest opts0 recNoAC = .error (.outOfRange "AC")) ∧
    (assembleFamily extTest optsCon recGood = .ok (some mGoodCon) ∧
      ((recGood.header.lookup "AC").isSome ∧ (recGood.header.lookup "ID").isSome ∧
        (optsCon.constrain = true →
          (recGood.seqence_information.lookup "SS_cons").isSome))) :=
  ⟨⟨rfl, (C10_theorem extTest opts0 recNoAC).1 rfl⟩,
    ⟨rfl, (C10_theorem extTest optsCon recGood).2.2 mGoodCon rfl⟩⟩

end RNAMotif
